import Mathlib

/-!
Verification development for the `tspf` TSPLIB parser (`src/tsp.rs`,
`src/error.rs`, `src/metric.rs`).

The Rust code is shallowly embedded as executable Lean definitions:

* Rust `String`/`&str` values become `List Char` (named `Str` below), and the
  string helpers used by the parser (`trim`, `split`, `split_whitespace`,
  `starts_with`, `lines`) are translated explicitly so every step of the
  parser is inspectable.
* `usize` becomes `Nat`; `f64` values parsed from the file become `Rat`
  (exact decimal reading; no claim below inspects a value whose binary
  floating-point rounding differs from the exact rational).
* Fallible code returns values of `Res`, whose constructor `Res.crash`
  models a Rust panic (an `unwrap`, an out-of-bounds index, a `todo!` or an
  `unimplemented!`), while `Res.err` carries the typed `ParseTspError`.
* `HashMap` and `HashSet` become association lists with the same
  insert-overwrites / insert-deduplicates behaviour.
-/

namespace Tspf

/-- Rust strings are modelled as lists of characters. -/
abbrev Str := List Char

/-- The whitespace test used by `str::trim` and `str::split_whitespace`
(restricted to the ASCII whitespace that can occur in the inputs here). -/
def isWs (c : Char) : Bool :=
  c = ' ' || c = '\t' || c = '\n' || c = '\r'

/-- Embeds Rust `str::trim` (drop whitespace at both ends). -/
def trimF (s : Str) : Str :=
  ((s.dropWhile isWs).reverse.dropWhile isWs).reverse

/-- Embeds Rust `str::starts_with`: `startsWithL s pat` is true when `pat`
is a leading segment of `s`. -/
def startsWithL : Str → Str → Bool
  | _, [] => true
  | [], _ :: _ => false
  | c :: cs, p :: ps => c = p && startsWithL cs ps

/-- Embeds Rust `str::split(sep)`: split at every separator, keeping empty
pieces, so the result always has one more piece than there are separators. -/
def splitOnC (sep : Char) : Str → List Str
  | [] => [[]]
  | c :: cs =>
    if c = sep then [] :: splitOnC sep cs
    else
      match splitOnC sep cs with
      | [] => [[c]]
      | p :: ps => (c :: p) :: ps

/-- One-pass tokenizer behind `splitWS`; `acc` holds the characters of the
current word in reverse. -/
def splitWSAux : Str → Str → List Str
  | [], acc => if acc.isEmpty then [] else [acc.reverse]
  | c :: cs, acc =>
    if isWs c then
      if acc.isEmpty then splitWSAux cs [] else acc.reverse :: splitWSAux cs []
    else splitWSAux cs (c :: acc)

/-- Embeds Rust `str::split_whitespace`: the maximal runs of non-whitespace
characters, in order, with no empty pieces. -/
def splitWS (s : Str) : List Str := splitWSAux s []

/-- Embeds Rust `str::lines` on a whole input: split at every newline, drop
one trailing carriage return per line, and drop a final empty piece. -/
def rustLines (s : Str) : List Str :=
  let pieces := splitOnC '\n' s
  let pieces :=
    match pieces.getLast? with
    | some [] => pieces.dropLast
    | _ => pieces
  pieces.map (fun l => if l.getLast? = some '\r' then l.dropLast else l)

/-- Numeric value of a decimal digit character, if it is one. -/
def digitVal (c : Char) : Option Nat :=
  if '0' ≤ c ∧ c ≤ '9' then some (c.toNat - 48) else none

/-- Accumulator loop of the decimal `usize` reader. -/
def parseNatAux : Str → Nat → Option Nat
  | [], acc => some acc
  | c :: cs, acc =>
    match digitVal c with
    | some d => parseNatAux cs (acc * 10 + d)
    | none => none

/-- Embeds Rust `str::parse::<usize>` on the plain decimal strings that occur
in TSPLIB files: one or more digits, nothing else. -/
def parseNatR (s : Str) : Option Nat :=
  match s with
  | [] => none
  | _ => parseNatAux s 0

/-- Natural number denoted by a digit run (used by the decimal reader). -/
def digitsVal (s : Str) : Nat :=
  s.foldl (fun acc c => acc * 10 + (c.toNat - 48)) 0

/-- Unsigned part of the `f64` reader: digits, optionally followed by a dot
and further digits. The value is kept as an exact rational. -/
def parseRatPos (s : Str) : Option ℚ :=
  let ip := s.takeWhile Char.isDigit
  let rest := s.dropWhile Char.isDigit
  match rest with
  | [] => if ip = [] then none else some (digitsVal ip : ℚ)
  | '.' :: fr =>
    if fr.all Char.isDigit ∧ (ip ≠ [] ∨ fr ≠ []) then
      some ((digitsVal ip : ℚ) + (digitsVal fr : ℚ) / (10 : ℚ) ^ fr.length)
    else none
  | _ => none

/-- Embeds Rust `str::parse::<f64>` on the plain decimal literals that occur
in TSPLIB files, read exactly into `ℚ`. -/
def parseRatR (s : Str) : Option ℚ :=
  match s with
  | '-' :: rest => (parseRatPos rest).map (fun q => -q)
  | '+' :: rest => parseRatPos rest
  | _ => parseRatPos s

/-- Embeds `ParseTspError` of `src/error.rs` (the `IoError` variant carries
an operating-system error and cannot arise from `parse_str`, so it is left
out of the string-parsing model). -/
inductive ParseTspError where
  | MissingEntry (key : Str)
  | InvalidEntry (entry : Str)
  | InvalidInput (key : Str) (val : Str)
  | Other (msg : Str)
  deriving DecidableEq, Repr

/-- Outcome of running a piece of the Rust parser: a value, a typed
`ParseTspError`, or a panic (`Res.crash` — an `unwrap` of `None`/`Err`, an
out-of-bounds index, `todo!` or `unimplemented!`). -/
inductive Res (α : Type) where
  | ok (a : α)
  | err (e : ParseTspError)
  | crash
  deriving DecidableEq, Repr

/-- Sequencing of outcomes: errors and panics propagate. -/
def Res.bind {α β : Type} : Res α → (α → Res β) → Res β
  | .ok a, f => f a
  | .err e, _ => .err e
  | .crash, _ => .crash

@[simp] theorem Res.bind_ok {α β : Type} (a : α) (f : α → Res β) :
    Res.bind (.ok a) f = f a := rfl

@[simp] theorem Res.bind_err {α β : Type} (e : ParseTspError) (f : α → Res β) :
    Res.bind (.err e) f = .err e := rfl

@[simp] theorem Res.bind_crash {α β : Type} (f : α → Res β) :
    Res.bind .crash f = .crash := rfl

/-- Embeds Rust `Option::unwrap`: a panic on `None`. -/
def Res.ofOption {α : Type} : Option α → Res α
  | some a => .ok a
  | none => .crash

@[simp] theorem Res.ofOption_some {α : Type} (a : α) :
    Res.ofOption (some a) = .ok a := rfl

@[simp] theorem Res.ofOption_none {α : Type} :
    (Res.ofOption (none : Option α)) = .crash := rfl

/-- Mapping over a successful outcome. -/
def Res.map {α β : Type} (f : α → β) : Res α → Res β
  | .ok a => .ok (f a)
  | .err e => .err e
  | .crash => .crash

/-- Whether the outcome is a successful value. -/
def Res.isOk {α : Type} : Res α → Bool
  | .ok _ => true
  | _ => false

/-- Embeds Rust slice indexing `l[i]`: a panic when out of bounds. -/
def idxq {α : Type} (l : List α) (i : Nat) : Res α :=
  match l.get? i with
  | some x => .ok x
  | none => .crash

/-- Indexing into `(List.range m).map f` inside bounds yields `f i`. -/
theorem idxq_map_range {α : Type} {f : Nat → α} {i m : Nat} (h : i < m) :
    idxq ((List.range m).map f) i = Res.ok (f i) := by
  simp [idxq, List.get?_eq_getElem?, List.getElem?_map, List.getElem?_range h]

/-- Keyword `NAME` (`K_NAME` in the source). -/
def kName : Str := "NAME".toList

/-- Keyword `TYPE` (`K_TYPE` in the source). -/
def kType : Str := "TYPE".toList

/-- Keyword `DIMENSION` (`K_DIM` in the source). -/
def kDim : Str := "DIMENSION".toList

/-- Keyword `CAPACITY` (`K_CAP` in the source). -/
def kCap : Str := "CAPACITY".toList

/-- Keyword `EDGE_WEIGHT_TYPE` (`K_WEIGHT_TYPE` in the source). -/
def kWeightType : Str := "EDGE_WEIGHT_TYPE".toList

/-- Keyword `EDGE_WEIGHT_FORMAT` (`K_WEIGHT_FORMAT` in the source). -/
def kWeightFormat : Str := "EDGE_WEIGHT_FORMAT".toList

/-- Keyword `EDGE_DATA_FORMAT` (`K_EDGE_FORMAT` in the source). -/
def kEdgeFormat : Str := "EDGE_DATA_FORMAT".toList

/-- Keyword `NODE_COORD_TYPE` (`K_NODE_COORD_TYPE` in the source). -/
def kNodeCoordType : Str := "NODE_COORD_TYPE".toList

/-- Keyword `DISPLAY_DATA_TYPE` (`K_DISP_TYPE` in the source). -/
def kDispType : Str := "DISPLAY_DATA_TYPE".toList

/-- Keyword `NODE_COORD_SECTION` (`K_NODE_COORD_SEC` in the source). -/
def kNodeCoordSec : Str := "NODE_COORD_SECTION".toList

/-- Keyword `EDGE_WEIGHT_SECTION` (`K_EDGE_WEIGHT_SEC` in the source). -/
def kEdgeWeightSec : Str := "EDGE_WEIGHT_SECTION".toList

/-- Keyword `TOUR_SECTION` (`K_TOUR_SEC` in the source). -/
def kTourSec : Str := "TOUR_SECTION".toList

/-- Embeds enum `TspKind` of `src/tsp.rs`. -/
inductive TspKind where
  | Tsp | Atsp | Sop | Hcp | Cvrp | Tour | Undefined
  deriving DecidableEq, Repr

/-- Embeds `TryFrom<InputWrapper<T>> for TspKind`. -/
def TspKind.tryFromS (s : Str) : Res TspKind :=
  if s = "TSP".toList then .ok .Tsp
  else if s = "ATSP".toList then .ok .Atsp
  else if s = "SOP".toList then .ok .Sop
  else if s = "HCP".toList then .ok .Hcp
  else if s = "CVRP".toList then .ok .Cvrp
  else if s = "TOUR".toList then .ok .Tour
  else .err (.InvalidInput kType s)

/-- Embeds enum `WeightKind` of `src/tsp.rs`. -/
inductive WeightKind where
  | Explicit | Euc2d | Euc3d | Max2d | Max3d | Man2d | Man3d
  | Ceil2d | Geo | Att | Xray1 | Xray2 | Custom | Undefined
  deriving DecidableEq, Repr

/-- Embeds `TryFrom<InputWrapper<T>> for WeightKind`. -/
def WeightKind.tryFromS (s : Str) : Res WeightKind :=
  if s = "EXPLICIT".toList then .ok .Explicit
  else if s = "EUC_2D".toList then .ok .Euc2d
  else if s = "EUC_3D".toList then .ok .Euc3d
  else if s = "MAX_2D".toList then .ok .Max2d
  else if s = "MAX_3D".toList then .ok .Max3d
  else if s = "MAN_2D".toList then .ok .Man2d
  else if s = "MAN_3D".toList then .ok .Man3d
  else if s = "CEIL_2D".toList then .ok .Ceil2d
  else if s = "GEO".toList then .ok .Geo
  else if s = "ATT".toList then .ok .Att
  else if s = "XRAY1".toList then .ok .Xray1
  else if s = "XRAY2".toList then .ok .Xray2
  else if s = "SPECIAL".toList then .ok .Custom
  else .err (.InvalidInput kWeightType s)

/-- Embeds enum `WeightFormat` of `src/tsp.rs`. -/
inductive WeightFormat where
  | Function | FullMatrix
  | UpperRow | LowerRow | UpperDiagRow | LowerDiagRow
  | UpperCol | LowerCol | UpperDiagCol | LowerDiagCol
  | Undefined
  deriving DecidableEq, Repr

/-- Embeds `TryFrom<InputWrapper<T>> for WeightFormat`. -/
def WeightFormat.tryFromS (s : Str) : Res WeightFormat :=
  if s = "FUNCTION".toList then .ok .Function
  else if s = "FULL_MATRIX".toList then .ok .FullMatrix
  else if s = "UPPER_ROW".toList then .ok .UpperRow
  else if s = "LOWER_ROW".toList then .ok .LowerRow
  else if s = "UPPER_DIAG_ROW".toList then .ok .UpperDiagRow
  else if s = "LOWER_DIAG_ROW".toList then .ok .LowerDiagRow
  else if s = "UPPER_COL".toList then .ok .UpperCol
  else if s = "LOWER_COL".toList then .ok .LowerCol
  else if s = "UPPER_DIAG_COL".toList then .ok .UpperDiagCol
  else if s = "LOWER_DIAG_COL".toList then .ok .LowerDiagCol
  else .err (.InvalidInput kWeightFormat s)

/-- Embeds enum `EdgeFormat` of `src/tsp.rs` (the `EdgeList` variant carries
its accumulated edges, as in the source). -/
inductive EdgeFormat where
  | EdgeList (edges : List (Nat × Nat))
  | AdjList
  | Undefined
  deriving DecidableEq, Repr

/-- Embeds `TryFrom<InputWrapper<T>> for EdgeFormat`. -/
def EdgeFormat.tryFromS (s : Str) : Res EdgeFormat :=
  if s = "EDGE_LIST".toList then .ok (.EdgeList [])
  else if s = "ADJ_LIST".toList then .ok .AdjList
  else .err (.InvalidInput kEdgeFormat s)

/-- Embeds enum `CoordKind` of `src/tsp.rs`. -/
inductive CoordKind where
  | Coord2d | Coord3d | NoCoord | Undefined
  deriving DecidableEq, Repr

/-- Embeds `TryFrom<InputWrapper<T>> for CoordKind`. -/
def CoordKind.tryFromS (s : Str) : Res CoordKind :=
  if s = "TWOD_COORDS".toList then .ok .Coord2d
  else if s = "THREED_COORDS".toList then .ok .Coord3d
  else if s = "NO_COORDS".toList then .ok .NoCoord
  else .err (.InvalidInput kNodeCoordType s)

/-- Embeds `From<WeightKind> for CoordKind`: the coordinate kind derived
from the weight-computation kind. -/
def CoordKind.ofWeightKind : WeightKind → CoordKind
  | .Euc2d | .Max2d | .Man2d | .Ceil2d | .Geo | .Att => .Coord2d
  | .Euc3d | .Max3d | .Man3d => .Coord3d
  | _ => .Undefined

/-- Embeds enum `DisplayKind` of `src/tsp.rs`. -/
inductive DisplayKind where
  | DispCoo | Disp2d | NoDisp | Undefined
  deriving DecidableEq, Repr

/-- Embeds `TryFrom<InputWrapper<T>> for DisplayKind`. -/
def DisplayKind.tryFromS (s : Str) : Res DisplayKind :=
  if s = "COORD_DISPLAY".toList then .ok .DispCoo
  else if s = "TWOD_DISPLAY".toList then .ok .Disp2d
  else if s = "NO_DISPLAY".toList then .ok .NoDisp
  else .err (.InvalidInput kDispType s)

/-- Embeds struct `Point` of `src/tsp.rs`. -/
structure Point where
  id : Nat
  pos : List ℚ
  deriving DecidableEq, Repr

/-- Association-list embedding of `HashMap<usize, Point>`: an insert
replaces any earlier binding of the same key. -/
def coordInsert (m : List (Nat × Point)) (k : Nat) (v : Point) :
    List (Nat × Point) :=
  (k, v) :: m.filter (fun p => p.1 ≠ k)

/-- Lookup in the association list (`HashMap::get`). -/
def coordGet (m : List (Nat × Point)) (k : Nat) : Option Point :=
  (m.find? (fun p => p.1 = k)).map (fun p => p.2)

/-- Association-list embedding of `HashMap<usize, f64>` for demands. -/
def demandInsert (m : List (Nat × ℚ)) (k : Nat) (v : ℚ) : List (Nat × ℚ) :=
  (k, v) :: m.filter (fun p => p.1 ≠ k)

/-- List embedding of `HashSet<usize>`: inserting an existing element is a
no-op. -/
def setInsert (s : List Nat) (k : Nat) : List Nat :=
  if k ∈ s then s else k :: s

/-- Embeds struct `Tsp` of `src/tsp.rs`. -/
structure Tsp where
  name : Str
  kind : TspKind
  comment : Str
  dim : Nat
  capacity : Nat
  weight_kind : WeightKind
  weight_format : WeightFormat
  edge_format : EdgeFormat
  coord_kind : CoordKind
  disp_kind : DisplayKind
  node_coords : List (Nat × Point)
  depots : List Nat
  demands : List (Nat × ℚ)
  fixed_edges : List (Nat × Nat)
  disp_coords : List Point
  edge_weights : List (List ℚ)
  tours : List (List Nat)
  deriving DecidableEq, Repr

/-- Embeds `Tsp::weight` of `src/tsp.rs` (lines 203-242).

The parameter `cost` stands for the distance call
`self.weight_kind.cost(na.pos(), nb.pos())`: the floating-point distance
formulas of `src/metric.rs` (and the `WeightKind::cost` wrapper, which the
provided sources declare only for `MetricKind`) are not representable
exactly over `ℚ`, so the weight query is stated for an arbitrary cost
function, and every theorem below holds for all of them. -/
def Tsp.weight (cost : WeightKind → List ℚ → List ℚ → ℚ) (t : Tsp)
    (a b : Nat) : Res ℚ :=
  match t.weight_kind with
  | .Explicit =>
    match t.weight_format with
    | .Function => .ok 0
    | .FullMatrix => Res.bind (idxq t.edge_weights a) (fun r => idxq r b)
    | .UpperRow | .LowerCol =>
      if a < b then Res.bind (idxq t.edge_weights a) (fun r => idxq r (b - a - 1))
      else if b < a then Res.bind (idxq t.edge_weights b) (fun r => idxq r (a - b - 1))
      else .ok 0
    | .UpperDiagRow | .LowerDiagCol =>
      if a < b then Res.bind (idxq t.edge_weights a) (fun r => idxq r (b - a))
      else Res.bind (idxq t.edge_weights b) (fun r => idxq r (a - b))
    | .LowerRow | .UpperCol =>
      if a < b then Res.bind (idxq t.edge_weights (b - 1)) (fun r => idxq r a)
      else if b < a then Res.bind (idxq t.edge_weights (a - 1)) (fun r => idxq r b)
      else .ok 0
    | .LowerDiagRow | .UpperDiagCol =>
      if a < b then Res.bind (idxq t.edge_weights b) (fun r => idxq r a)
      else Res.bind (idxq t.edge_weights a) (fun r => idxq r b)
    | .Undefined => .ok 0
  | wk =>
    match coordGet t.node_coords a, coordGet t.node_coords b with
    | some na, some nb => .ok (cost wk na.pos nb.pos)
    | _, _ => .ok 0

/-- Storage rows of an `n × n` weight matrix `M` in a given format, exactly
as the section `EDGE_WEIGHT_SECTION` lays them out: the row lengths are the
ones produced by the row-length iterator of
`TspBuilder::parse_edge_weight_section` (lines 636-655, see
`trirows_lengths`), and the cells follow the TSPLIB row-wise or column-wise
triangular order named by each variant. -/
def trirows (F : WeightFormat) (n : Nat) (M : Nat → Nat → ℚ) :
    List (List ℚ) :=
  match F with
  | .FullMatrix =>
    (List.range n).map (fun i => (List.range n).map (fun j => M i j))
  | .UpperRow =>
    (List.range (n - 1)).map (fun i =>
      (List.range (n - 1 - i)).map (fun k => M i (i + 1 + k)))
  | .LowerCol =>
    (List.range (n - 1)).map (fun j =>
      (List.range (n - 1 - j)).map (fun k => M (j + 1 + k) j))
  | .LowerRow =>
    (List.range (n - 1)).map (fun r =>
      (List.range (r + 1)).map (fun k => M (r + 1) k))
  | .UpperCol =>
    (List.range (n - 1)).map (fun c =>
      (List.range (c + 1)).map (fun k => M k (c + 1)))
  | .UpperDiagRow =>
    (List.range n).map (fun i =>
      (List.range (n - i)).map (fun k => M i (i + k)))
  | .LowerDiagCol =>
    (List.range n).map (fun j =>
      (List.range (n - j)).map (fun k => M (j + k) j))
  | .LowerDiagRow =>
    (List.range n).map (fun i => (List.range (i + 1)).map (fun k => M i k))
  | .UpperDiagCol =>
    (List.range n).map (fun c => (List.range (c + 1)).map (fun k => M k c))
  | .Function | .Undefined => []

/-- Row lengths of the `EDGE_WEIGHT_SECTION` reader, translated from the
iterator table of `TspBuilder::parse_edge_weight_section` (lines 636-655):
Rust `1..dim` is `List.range' 1 (dim - 1)`, `1..=dim` is
`List.range' 1 dim`, and `repeat(dim).take(dim)` is `replicate`. -/
def pewRowLens (wf : WeightFormat) (dim : Nat) : List Nat :=
  match wf with
  | .Function => []
  | .FullMatrix => List.replicate dim dim
  | .UpperRow | .LowerCol => (List.range' 1 (dim - 1)).reverse
  | .LowerRow | .UpperCol => List.range' 1 (dim - 1)
  | .UpperDiagRow | .LowerDiagCol => (List.range' 1 dim).reverse
  | .LowerDiagRow | .UpperDiagCol => List.range' 1 dim
  | .Undefined => []

/-- Token count of the `EDGE_WEIGHT_SECTION` reader (`cnt` in lines
636-655). -/
def pewCount (wf : WeightFormat) (dim : Nat) : Nat :=
  match wf with
  | .Function => 0
  | .FullMatrix => dim * dim
  | .UpperRow | .LowerCol | .LowerRow | .UpperCol => dim * (dim - 1) / 2
  | .UpperDiagRow | .LowerDiagCol | .LowerDiagRow | .UpperDiagCol =>
    dim * (dim + 1) / 2
  | .Undefined => 0

/-- The storage rows have exactly the lengths that
`parse_edge_weight_section` slices the flat token stream into. -/
theorem trirows_lengths (F : WeightFormat) (n : Nat) (M : Nat → Nat → ℚ) :
    (trirows F n M).map List.length = pewRowLens F n := by
  have hrev : ∀ m : Nat, (List.range' 1 m).reverse =
      (List.range m).map (fun i => m - i) := by
    intro m
    rw [List.reverse_range']
    exact List.map_congr_left (fun i hi => by
      have : i < m := List.mem_range.mp hi
      omega)
  have hfwd : ∀ m : Nat, List.range' 1 m =
      (List.range m).map (fun i => i + 1) := by
    intro m
    rw [List.range'_eq_map_range]
    exact List.map_congr_left (fun i _ => Nat.add_comm 1 i)
  cases F with
  | Function => rfl
  | Undefined => rfl
  | FullMatrix =>
    simp [trirows, pewRowLens, List.map_map, Function.comp,
      List.eq_replicate_iff]
  | UpperRow => simp [trirows, pewRowLens, List.map_map, Function.comp, hrev]
  | LowerCol => simp [trirows, pewRowLens, List.map_map, Function.comp, hrev]
  | LowerRow => simp [trirows, pewRowLens, List.map_map, Function.comp, hfwd]
  | UpperCol => simp [trirows, pewRowLens, List.map_map, Function.comp, hfwd]
  | UpperDiagRow =>
    simp [trirows, pewRowLens, List.map_map, Function.comp, hrev]
  | LowerDiagCol =>
    simp [trirows, pewRowLens, List.map_map, Function.comp, hrev]
  | LowerDiagRow =>
    simp [trirows, pewRowLens, List.map_map, Function.comp, hfwd]
  | UpperDiagCol =>
    simp [trirows, pewRowLens, List.map_map, Function.comp, hfwd]

/-- An `Explicit` instance whose `edge_weights` hold the matrix `M` encoded
in storage format `F`; the remaining fields are the defaults `build`
supplies for absent sections. -/
def mkExplicit (F : WeightFormat) (n : Nat) (M : Nat → Nat → ℚ) : Tsp :=
  { name := [], kind := .Tsp, comment := [], dim := n, capacity := 0,
    weight_kind := .Explicit, weight_format := F, edge_format := .Undefined,
    coord_kind := .Undefined, disp_kind := .Undefined, node_coords := [],
    depots := [], demands := [], fixed_edges := [], disp_coords := [],
    edge_weights := trirows F n M, tours := [] }

/-- Off-diagonal weight lookup in each of the eight triangular storage
formats recovers the entry of the symmetric source matrix. -/
theorem weight_tri_ne (cost : WeightKind → List ℚ → List ℚ → ℚ)
    (F : WeightFormat) {n : Nat} (M : Nat → Nat → ℚ)
    (hF : F = .UpperRow ∨ F = .LowerCol ∨ F = .LowerRow ∨ F = .UpperCol ∨
      F = .UpperDiagRow ∨ F = .LowerDiagCol ∨ F = .LowerDiagRow ∨
      F = .UpperDiagCol)
    (hsym : ∀ i j, M i j = M j i) {a b : Nat} (ha : a < n) (hb : b < n)
    (hab : a ≠ b) :
    Tsp.weight cost (mkExplicit F n M) a b = Res.ok (M a b) := by
  rcases hF with rfl | rfl | rfl | rfl | rfl | rfl | rfl | rfl
  · -- UpperRow
    rcases Nat.lt_trichotomy a b with h | h | h
    · simp only [Tsp.weight, mkExplicit, trirows]
      rw [if_pos h, idxq_map_range (show a < n - 1 by omega), Res.bind_ok,
        idxq_map_range (show b - a - 1 < n - 1 - a by omega)]
      have e : a + 1 + (b - a - 1) = b := by omega
      rw [e]
    · exact absurd h hab
    · simp only [Tsp.weight, mkExplicit, trirows]
      rw [if_neg (by omega), if_pos h,
        idxq_map_range (show b < n - 1 by omega), Res.bind_ok,
        idxq_map_range (show a - b - 1 < n - 1 - b by omega)]
      have e : b + 1 + (a - b - 1) = a := by omega
      rw [e, hsym b a]
  · -- LowerCol
    rcases Nat.lt_trichotomy a b with h | h | h
    · simp only [Tsp.weight, mkExplicit, trirows]
      rw [if_pos h, idxq_map_range (show a < n - 1 by omega), Res.bind_ok,
        idxq_map_range (show b - a - 1 < n - 1 - a by omega)]
      have e : a + 1 + (b - a - 1) = b := by omega
      rw [e, hsym b a]
    · exact absurd h hab
    · simp only [Tsp.weight, mkExplicit, trirows]
      rw [if_neg (by omega), if_pos h,
        idxq_map_range (show b < n - 1 by omega), Res.bind_ok,
        idxq_map_range (show a - b - 1 < n - 1 - b by omega)]
      have e : b + 1 + (a - b - 1) = a := by omega
      rw [e]
  · -- LowerRow
    rcases Nat.lt_trichotomy a b with h | h | h
    · simp only [Tsp.weight, mkExplicit, trirows]
      rw [if_pos h, idxq_map_range (show b - 1 < n - 1 by omega), Res.bind_ok,
        idxq_map_range (show a < b - 1 + 1 by omega)]
      have e : b - 1 + 1 = b := by omega
      rw [e, hsym b a]
    · exact absurd h hab
    · simp only [Tsp.weight, mkExplicit, trirows]
      rw [if_neg (by omega), if_pos h,
        idxq_map_range (show a - 1 < n - 1 by omega), Res.bind_ok,
        idxq_map_range (show b < a - 1 + 1 by omega)]
      have e : a - 1 + 1 = a := by omega
      rw [e]
  · -- UpperCol
    rcases Nat.lt_trichotomy a b with h | h | h
    · simp only [Tsp.weight, mkExplicit, trirows]
      rw [if_pos h, idxq_map_range (show b - 1 < n - 1 by omega), Res.bind_ok,
        idxq_map_range (show a < b - 1 + 1 by omega)]
      have e : b - 1 + 1 = b := by omega
      rw [e]
    · exact absurd h hab
    · simp only [Tsp.weight, mkExplicit, trirows]
      rw [if_neg (by omega), if_pos h,
        idxq_map_range (show a - 1 < n - 1 by omega), Res.bind_ok,
        idxq_map_range (show b < a - 1 + 1 by omega)]
      have e : a - 1 + 1 = a := by omega
      rw [e, hsym b a]
  · -- UpperDiagRow
    rcases Nat.lt_trichotomy a b with h | h | h
    · simp only [Tsp.weight, mkExplicit, trirows]
      rw [if_pos h, idxq_map_range (show a < n by omega), Res.bind_ok,
        idxq_map_range (show b - a < n - a by omega)]
      have e : a + (b - a) = b := by omega
      rw [e]
    · exact absurd h hab
    · simp only [Tsp.weight, mkExplicit, trirows]
      rw [if_neg (by omega), idxq_map_range (show b < n by omega),
        Res.bind_ok, idxq_map_range (show a - b < n - b by omega)]
      have e : b + (a - b) = a := by omega
      rw [e, hsym b a]
  · -- LowerDiagCol
    rcases Nat.lt_trichotomy a b with h | h | h
    · simp only [Tsp.weight, mkExplicit, trirows]
      rw [if_pos h, idxq_map_range (show a < n by omega), Res.bind_ok,
        idxq_map_range (show b - a < n - a by omega)]
      have e : a + (b - a) = b := by omega
      rw [e, hsym b a]
    · exact absurd h hab
    · simp only [Tsp.weight, mkExplicit, trirows]
      rw [if_neg (by omega), idxq_map_range (show b < n by omega),
        Res.bind_ok, idxq_map_range (show a - b < n - b by omega)]
      have e : b + (a - b) = a := by omega
      rw [e]
  · -- LowerDiagRow
    rcases Nat.lt_trichotomy a b with h | h | h
    · simp only [Tsp.weight, mkExplicit, trirows]
      rw [if_pos h, idxq_map_range (show b < n by omega), Res.bind_ok,
        idxq_map_range (show a < b + 1 by omega), hsym b a]
    · exact absurd h hab
    · simp only [Tsp.weight, mkExplicit, trirows]
      rw [if_neg (by omega), idxq_map_range (show a < n by omega),
        Res.bind_ok, idxq_map_range (show b < a + 1 by omega)]
  · -- UpperDiagCol
    rcases Nat.lt_trichotomy a b with h | h | h
    · simp only [Tsp.weight, mkExplicit, trirows]
      rw [if_pos h, idxq_map_range (show b < n by omega), Res.bind_ok,
        idxq_map_range (show a < b + 1 by omega)]
    · exact absurd h hab
    · simp only [Tsp.weight, mkExplicit, trirows]
      rw [if_neg (by omega), idxq_map_range (show a < n by omega),
        Res.bind_ok, idxq_map_range (show b < a + 1 by omega), hsym b a]

/-- Diagonal lookup in the four with-diagonal formats and in `FullMatrix`
returns the stored diagonal entry. -/
theorem weight_diag_val (cost : WeightKind → List ℚ → List ℚ → ℚ)
    (F : WeightFormat) {n : Nat} (M : Nat → Nat → ℚ)
    (hF : F = .UpperDiagRow ∨ F = .LowerDiagCol ∨ F = .LowerDiagRow ∨
      F = .UpperDiagCol ∨ F = .FullMatrix) {a : Nat} (ha : a < n) :
    Tsp.weight cost (mkExplicit F n M) a a = Res.ok (M a a) := by
  rcases hF with rfl | rfl | rfl | rfl | rfl
  · simp only [Tsp.weight, mkExplicit, trirows]
    rw [if_neg (lt_irrefl a), idxq_map_range ha, Res.bind_ok,
      idxq_map_range (show a - a < n - a by omega)]
    have e : a + (a - a) = a := by omega
    rw [e]
  · simp only [Tsp.weight, mkExplicit, trirows]
    rw [if_neg (lt_irrefl a), idxq_map_range ha, Res.bind_ok,
      idxq_map_range (show a - a < n - a by omega)]
    have e : a + (a - a) = a := by omega
    rw [e]
  · simp only [Tsp.weight, mkExplicit, trirows]
    rw [if_neg (lt_irrefl a), idxq_map_range ha, Res.bind_ok,
      idxq_map_range (show a < a + 1 by omega)]
  · simp only [Tsp.weight, mkExplicit, trirows]
    rw [if_neg (lt_irrefl a), idxq_map_range ha, Res.bind_ok,
      idxq_map_range (show a < a + 1 by omega)]
  · simp only [Tsp.weight, mkExplicit, trirows]
    rw [idxq_map_range ha, Res.bind_ok, idxq_map_range ha]

/-- In the four formats without diagonal entries, the query `weight(a, a)`
returns `0` without touching the stored rows at all. -/
theorem weight_nodiag_zero (cost : WeightKind → List ℚ → List ℚ → ℚ)
    (t : Tsp) (hk : t.weight_kind = .Explicit)
    (hF : t.weight_format = .UpperRow ∨ t.weight_format = .LowerCol ∨
      t.weight_format = .LowerRow ∨ t.weight_format = .UpperCol)
    (a : Nat) : Tsp.weight cost t a a = Res.ok 0 := by
  rcases hF with hF | hF | hF | hF <;> simp [Tsp.weight, hk, hF]

/-- Embeds struct `TspBuilder` of `src/tsp.rs`: every field optional. -/
structure TspBuilder where
  name : Option Str := none
  kind : Option TspKind := none
  comment : Option Str := none
  dim : Option Nat := none
  capacity : Option Nat := none
  weight_kind : Option WeightKind := none
  weight_format : Option WeightFormat := none
  edge_format : Option EdgeFormat := none
  coord_kind : Option CoordKind := none
  disp_kind : Option DisplayKind := none
  coords : Option (List (Nat × Point)) := none
  depots : Option (List Nat) := none
  demands : Option (List (Nat × ℚ)) := none
  edge_weights : Option (List (List ℚ)) := none
  disp_coords : Option (List Point) := none
  fixed_edges : Option (List (Nat × Nat)) := none
  tours : Option (List (List Nat)) := none
  deriving DecidableEq, Repr

/-- Embeds `TspBuilder::new` (all fields default to `None`). -/
def TspBuilder.new : TspBuilder := {}

/-- Embeds `TspBuilder::validate_spec` (lines 719-773), keeping the order of
the checks: name, then the kind-specific requirements, then the dimension. -/
def TspBuilder.validateSpec (b : TspBuilder) : Res Unit :=
  if b.name.isNone then .err (.MissingEntry kName)
  else
    match b.kind with
    | some kind =>
      Res.bind
        (match kind with
         | .Tsp | .Atsp | .Cvrp | .Sop =>
           Res.bind
             (match b.weight_kind with
              | some wk =>
                if wk = .Undefined then Res.err (.InvalidEntry kWeightType)
                else Res.ok ()
              | none => Res.err (.MissingEntry kWeightType))
             (fun _ =>
               if kind = .Cvrp ∧ b.capacity.isNone then
                 Res.err (.MissingEntry kCap)
               else Res.ok ())
         | .Hcp =>
           match b.edge_format with
           | some ef =>
             if ef = .Undefined then Res.err (.InvalidEntry kEdgeFormat)
             else Res.ok ()
           | none => Res.err (.MissingEntry kEdgeFormat)
         | .Tour => Res.ok ()
         | .Undefined => Res.err (.InvalidEntry kType))
        (fun _ =>
          if kind ≠ .Tour ∧ b.dim.isNone then Res.err (.MissingEntry kDim)
          else Res.ok ())
    | none => .err (.MissingEntry kType)

/-- Embeds `TspBuilder::validate_data` (lines 776-816); the `unwrap` calls
on `kind` and `weight_kind` become `Res.crash` when the field is absent. -/
def TspBuilder.validateData (b : TspBuilder) : Res Unit :=
  Res.bind
    (match b.kind with
     | none => Res.crash
     | some k =>
       match k with
       | .Tsp | .Atsp | .Cvrp =>
         match b.weight_kind with
         | none => Res.crash
         | some wk =>
           match wk with
           | .Explicit =>
             if b.edge_weights.isNone then Res.err (.MissingEntry kEdgeWeightSec)
             else Res.ok ()
           | _ =>
             if b.coords.isNone then Res.err (.MissingEntry kNodeCoordSec)
             else Res.ok ()
       | .Sop | .Hcp => Res.ok ()
       | .Tour =>
         if b.tours.isNone then Res.err (.MissingEntry kTourSec) else Res.ok ()
       | .Undefined => Res.ok ())
    (fun _ =>
      match b.weight_kind with
      | some .Explicit =>
        if b.edge_weights.isNone then Res.err (.MissingEntry kEdgeWeightSec)
        else Res.ok ()
      | some _ =>
        if b.coords.isNone then Res.err (.MissingEntry kNodeCoordSec)
        else Res.ok ()
      | none => Res.ok ())

/-- Embeds `TspBuilder::build` (lines 820-845): both validations, then the
assembly with the defaults of the source (`unwrap_or`-style). -/
def TspBuilder.build (b : TspBuilder) : Res Tsp :=
  Res.bind b.validateSpec fun _ =>
  Res.bind b.validateData fun _ =>
  match b.name, b.kind with
  | some nm, some k =>
    Res.ok { name := nm, kind := k, comment := b.comment.getD [],
             dim := b.dim.getD 0, capacity := b.capacity.getD 0,
             weight_kind := b.weight_kind.getD .Undefined,
             weight_format := b.weight_format.getD .Undefined,
             edge_format := b.edge_format.getD .Undefined,
             coord_kind := b.coord_kind.getD .Undefined,
             disp_kind := b.disp_kind.getD .Undefined,
             node_coords := b.coords.getD [], demands := b.demands.getD [],
             depots := b.depots.getD [],
             edge_weights := b.edge_weights.getD [],
             disp_coords := b.disp_coords.getD [],
             fixed_edges := b.fixed_edges.getD [],
             tours := b.tours.getD [] }
  | _, _ => Res.crash

/-- Every outcome of spec validation is success, a missing-entry error or an
invalid-entry error — never a panic and never another error variant. -/
theorem validateSpec_cases (b : TspBuilder) :
    b.validateSpec = Res.ok () ∨
    (∃ s, b.validateSpec = Res.err (.MissingEntry s)) ∨
    (∃ s, b.validateSpec = Res.err (.InvalidEntry s)) := by
  unfold TspBuilder.validateSpec
  repeat' split
  all_goals simp [Res.bind]

/-- A cost function that is identically zero, used to instantiate the
claims at concrete inputs (the `Explicit` paths never consult it). -/
def zeroCost : WeightKind → List ℚ → List ℚ → ℚ := fun _ _ _ => 0

/-- The constant-one matrix: symmetric, with nonzero diagonal. -/
def mOne : Nat → Nat → ℚ := fun _ _ => 1

/-- A symmetric matrix with distinct off-diagonal values. -/
def mAdd : Nat → Nat → ℚ := fun i j => ((i + j : Nat) : ℚ)

/-- C1, amended: for every dimension `n`, every symmetric matrix `M` encoded
row-partitioned per the section 4.4 table in any of the eight triangular
storage formats, the weight query returns the source entry for every
off-diagonal pair — and on the diagonal as well for the four with-diagonal
formats — and `weight(a, b)` equals `weight(b, a)` for every pair. The
original claim also asserted `weight(a, a)` equals the source entry for the
four formats without diagonal entries, which fails (see the
counterexample): those formats store no diagonal and the query returns `0`
there. -/
theorem c1_tri_weight_amended (cost : WeightKind → List ℚ → List ℚ → ℚ)
    (F : WeightFormat) (n : Nat) (M : Nat → Nat → ℚ) (a b : Nat)
    (hF : F = .UpperRow ∨ F = .LowerCol ∨ F = .LowerRow ∨ F = .UpperCol ∨
      F = .UpperDiagRow ∨ F = .LowerDiagCol ∨ F = .LowerDiagRow ∨
      F = .UpperDiagCol)
    (hsym : ∀ i j, M i j = M j i) (ha : a < n) (hb : b < n) :
    ((a ≠ b ∨ F = .UpperDiagRow ∨ F = .LowerDiagCol ∨ F = .LowerDiagRow ∨
        F = .UpperDiagCol) →
      Tsp.weight cost (mkExplicit F n M) a b = Res.ok (M a b)) ∧
    Tsp.weight cost (mkExplicit F n M) a b =
      Tsp.weight cost (mkExplicit F n M) b a := by
  constructor
  · rintro (hab | hd)
    · exact weight_tri_ne cost F M hF hsym ha hb hab
    · by_cases hab : a = b
      · subst hab
        exact weight_diag_val cost F M (by tauto) ha
      · exact weight_tri_ne cost F M hF hsym ha hb hab
  · by_cases hab : a = b
    · subst hab; rfl
    · rw [weight_tri_ne cost F M hF hsym ha hb hab,
        weight_tri_ne cost F M hF hsym hb ha (Ne.symm hab), hsym a b]

/-- C1, counterexample to the original claim: for `n = 1` and format
`UpperRow` (no diagonal stored), the symmetric source matrix `mOne` has
entry `1` at the in-range pair `(0, 0)`, yet the weight query returns `0`. -/
theorem c1_tri_weight_cex :
    (∀ i j, mOne i j = mOne j i) ∧ (0 : Nat) < 1 ∧
    Tsp.weight zeroCost (mkExplicit .UpperRow 1 mOne) 0 0 = Res.ok 0 ∧
    mOne 0 0 ≠ 0 :=
  ⟨fun _ _ => rfl, Nat.zero_lt_one, rfl, by decide⟩

/-- C1, witness: the amended theorem applied at format `UpperDiagRow`,
dimension 2, the symmetric matrix `mAdd` and the pair `(0, 1)`. -/
theorem c1_tri_weight_witness :
    Tsp.weight zeroCost (mkExplicit .UpperDiagRow 2 mAdd) 0 1 =
      Res.ok (mAdd 0 1) ∧
    Tsp.weight zeroCost (mkExplicit .UpperDiagRow 2 mAdd) 0 1 =
      Tsp.weight zeroCost (mkExplicit .UpperDiagRow 2 mAdd) 1 0 := by
  have h := c1_tri_weight_amended zeroCost .UpperDiagRow 2 mAdd 0 1
    (Or.inr (Or.inr (Or.inr (Or.inr (Or.inl rfl)))))
    (fun i j => by simp [mAdd, Nat.add_comm]) (by omega) (by omega)
  exact ⟨h.1 (Or.inl (by decide)), h.2⟩

/-- C2: on the diagonal, the four formats without stored diagonal entries
answer `0`, while the four with-diagonal formats and `FullMatrix` answer
the stored diagonal value of the encoded matrix. -/
theorem c2_diag_weight (cost : WeightKind → List ℚ → List ℚ → ℚ)
    (F : WeightFormat) (n : Nat) (M : Nat → Nat → ℚ) (a : Nat) (ha : a < n) :
    ((F = .UpperRow ∨ F = .LowerCol ∨ F = .LowerRow ∨ F = .UpperCol) →
      Tsp.weight cost (mkExplicit F n M) a a = Res.ok 0) ∧
    ((F = .UpperDiagRow ∨ F = .LowerDiagCol ∨ F = .LowerDiagRow ∨
        F = .UpperDiagCol ∨ F = .FullMatrix) →
      Tsp.weight cost (mkExplicit F n M) a a = Res.ok (M a a)) := by
  constructor
  · intro hF
    exact weight_nodiag_zero cost (mkExplicit F n M) rfl hF a
  · intro hF
    exact weight_diag_val cost F M hF ha

/-- C2, witness: the theorem applied at dimension 2 and node 1, once for the
no-diagonal format `UpperRow` and once for the with-diagonal format
`LowerDiagRow`. -/
theorem c2_diag_weight_witness :
    Tsp.weight zeroCost (mkExplicit .UpperRow 2 mAdd) 1 1 = Res.ok 0 ∧
    Tsp.weight zeroCost (mkExplicit .LowerDiagRow 2 mAdd) 1 1 =
      Res.ok (mAdd 1 1) :=
  ⟨(c2_diag_weight zeroCost .UpperRow 2 mAdd 1 (by omega)).1 (Or.inl rfl),
   (c2_diag_weight zeroCost .LowerDiagRow 2 mAdd 1 (by omega)).2
     (Or.inr (Or.inr (Or.inl rfl)))⟩

/-- C3: spec validation succeeds exactly when the name is set, the kind is
set and defined, the weight kind is set and defined for TSP/ATSP/CVRP/SOP,
the capacity is set for CVRP, the edge format is set and defined for HCP,
and the dimension is set for every kind except TOUR; any failure is a
missing-entry or invalid-entry error (never a panic). -/
theorem c3_validate_spec (b : TspBuilder) :
    (b.validateSpec = Res.ok () ↔
      (b.name.isSome ∧ ∃ k, b.kind = some k ∧ k ≠ TspKind.Undefined ∧
        ((k = TspKind.Tsp ∨ k = TspKind.Atsp ∨ k = TspKind.Cvrp ∨
            k = TspKind.Sop) →
          ∃ w, b.weight_kind = some w ∧ w ≠ WeightKind.Undefined) ∧
        (k = TspKind.Cvrp → b.capacity.isSome) ∧
        (k = TspKind.Hcp →
          ∃ ef, b.edge_format = some ef ∧ ef ≠ EdgeFormat.Undefined) ∧
        (k ≠ TspKind.Tour → b.dim.isSome))) ∧
    (∀ e, b.validateSpec = Res.err e →
      (∃ s, e = ParseTspError.MissingEntry s) ∨
      (∃ s, e = ParseTspError.InvalidEntry s)) := by
  constructor
  · cases hn : b.name with
    | none => simp [TspBuilder.validateSpec, hn]
    | some nm =>
      cases hk : b.kind with
      | none => simp [TspBuilder.validateSpec, hn, hk]
      | some k =>
        cases k with
        | Tsp =>
          cases hw : b.weight_kind with
          | none => simp [TspBuilder.validateSpec, hn, hk, hw]
          | some wk =>
            by_cases hwu : wk = WeightKind.Undefined
            · subst hwu; simp [TspBuilder.validateSpec, hn, hk, hw]
            · cases hd : b.dim with
              | none => simp [TspBuilder.validateSpec, hn, hk, hw, hwu, hd]
              | some d => simp [TspBuilder.validateSpec, hn, hk, hw, hwu, hd]
        | Atsp =>
          cases hw : b.weight_kind with
          | none => simp [TspBuilder.validateSpec, hn, hk, hw]
          | some wk =>
            by_cases hwu : wk = WeightKind.Undefined
            · subst hwu; simp [TspBuilder.validateSpec, hn, hk, hw]
            · cases hd : b.dim with
              | none => simp [TspBuilder.validateSpec, hn, hk, hw, hwu, hd]
              | some d => simp [TspBuilder.validateSpec, hn, hk, hw, hwu, hd]
        | Sop =>
          cases hw : b.weight_kind with
          | none => simp [TspBuilder.validateSpec, hn, hk, hw]
          | some wk =>
            by_cases hwu : wk = WeightKind.Undefined
            · subst hwu; simp [TspBuilder.validateSpec, hn, hk, hw]
            · cases hd : b.dim with
              | none => simp [TspBuilder.validateSpec, hn, hk, hw, hwu, hd]
              | some d => simp [TspBuilder.validateSpec, hn, hk, hw, hwu, hd]
        | Cvrp =>
          cases hw : b.weight_kind with
          | none => simp [TspBuilder.validateSpec, hn, hk, hw]
          | some wk =>
            by_cases hwu : wk = WeightKind.Undefined
            · subst hwu; simp [TspBuilder.validateSpec, hn, hk, hw]
            · cases hc : b.capacity with
              | none => simp [TspBuilder.validateSpec, hn, hk, hw, hwu, hc]
              | some c =>
                cases hd : b.dim with
                | none =>
                  simp [TspBuilder.validateSpec, hn, hk, hw, hwu, hc, hd]
                | some d =>
                  simp [TspBuilder.validateSpec, hn, hk, hw, hwu, hc, hd]
        | Hcp =>
          cases he : b.edge_format with
          | none => simp [TspBuilder.validateSpec, hn, hk, he]
          | some ef =>
            by_cases heu : ef = EdgeFormat.Undefined
            · subst heu; simp [TspBuilder.validateSpec, hn, hk, he]
            · cases hd : b.dim with
              | none => simp [TspBuilder.validateSpec, hn, hk, he, heu, hd]
              | some d => simp [TspBuilder.validateSpec, hn, hk, he, heu, hd]
        | Tour => simp [TspBuilder.validateSpec, hn, hk]
        | Undefined => simp [TspBuilder.validateSpec, hn, hk]
  · intro e he
    rcases validateSpec_cases b with h | ⟨s, h⟩ | ⟨s, h⟩
    · rw [he] at h; cases h
    · rw [he] at h
      injection h with h2
      exact Or.inl ⟨s, h2⟩
    · rw [he] at h
      injection h with h2
      exact Or.inr ⟨s, h2⟩

/-- C3, witness: the iff applied at a complete CVRP builder, yielding
successful validation. -/
theorem c3_validate_spec_witness :
    TspBuilder.validateSpec
      { name := some "t".toList, kind := some TspKind.Cvrp,
        dim := some 2, capacity := some 5,
        weight_kind := some WeightKind.Euc2d } = Res.ok () :=
  (c3_validate_spec _).1.mpr
    ⟨rfl, TspKind.Cvrp, rfl, by decide,
     fun _ => ⟨WeightKind.Euc2d, rfl, by decide⟩, fun _ => rfl,
     fun h => absurd h (by decide), fun _ => rfl⟩

/-- Embeds the `splitter` closure of `parse_it` (lines 338-341): split the
line at every colon and take the piece between the first and the second
colon, trimmed; a panic when the line has no colon (`val[1]` is out of
bounds then). -/
def splitterF (s : Str) : Res Str :=
  match splitOnC ':' s with
  | _ :: v :: _ => .ok (trimF v)
  | _ => .crash

/-- Embeds the coordinate-line closures of `parse_node_coord_section`
(lines 416-441): index into the whitespace-split tokens and `unwrap` each
numeric conversion. -/
def pointOfTokens (ck : CoordKind) (v : List Str) : Res Point :=
  match ck with
  | .Coord2d =>
    Res.bind (idxq v 0) fun t0 =>
    Res.bind (Res.ofOption (parseNatR t0)) fun id =>
    Res.bind (idxq v 1) fun t1 =>
    Res.bind (Res.ofOption (parseRatR t1)) fun x =>
    Res.bind (idxq v 2) fun t2 =>
    Res.bind (Res.ofOption (parseRatR t2)) fun y =>
    .ok ⟨id, [x, y]⟩
  | .Coord3d =>
    Res.bind (idxq v 0) fun t0 =>
    Res.bind (Res.ofOption (parseNatR t0)) fun id =>
    Res.bind (idxq v 1) fun t1 =>
    Res.bind (Res.ofOption (parseRatR t1)) fun x =>
    Res.bind (idxq v 2) fun t2 =>
    Res.bind (Res.ofOption (parseRatR t2)) fun y =>
    Res.bind (idxq v 3) fun t3 =>
    Res.bind (Res.ofOption (parseRatR t3)) fun z =>
    .ok ⟨id, [x, y, z]⟩
  | .NoCoord | .Undefined => .crash

/-- Loop of `parse_node_coord_section` (lines 443-459): exactly `dim`
lines, each inserted into the coordinate map keyed by its identifier. -/
def nodeCoordLoop (ck : CoordKind) :
    Nat → List (Nat × Point) → List Str →
    Res (List (Nat × Point) × List Str)
  | 0, dta, ls => .ok (dta, ls)
  | Nat.succ m, dta, ls =>
    match ls with
    | [] => .crash
    | l :: rest =>
      Res.bind (pointOfTokens ck (splitWS (trimF l))) fun pt =>
      nodeCoordLoop ck m (coordInsert dta pt.id pt) rest

/-- Embeds `TspBuilder::parse_node_coord_section` (lines 409-464); `NoCoord`
and `Undefined` coordinate kinds hit `unimplemented!` before any line is
read, and the `unwrap` calls on `coord_kind` and `dim` panic when unset. -/
def TspBuilder.parseNodeCoordSection (b : TspBuilder) (ls : List Str) :
    Res (TspBuilder × List Str) :=
  Res.bind b.validateSpec fun _ =>
  match b.coord_kind with
  | none => .crash
  | some ck =>
    match ck with
    | .NoCoord | .Undefined => .crash
    | _ =>
      match b.dim with
      | none => .crash
      | some dim =>
        Res.bind (nodeCoordLoop ck dim [] ls) fun r =>
        .ok ({ b with coords := some r.1 }, r.2)

/-- Loop of `parse_depot_section` (lines 476-483): single identifiers until
a line starting with the sentinel `-1`. -/
def depotLoop : List Nat → List Str → Res (List Nat × List Str)
  | _, [] => .crash
  | dta, l :: rest =>
    if startsWithL (trimF l) "-1".toList then .ok (dta, rest)
    else
      Res.bind (Res.ofOption (parseNatR (trimF l))) fun n =>
      depotLoop (setInsert dta n) rest

/-- Embeds `TspBuilder::parse_depot_section` (lines 467-488). -/
def TspBuilder.parseDepotSection (b : TspBuilder) (ls : List Str) :
    Res (TspBuilder × List Str) :=
  Res.bind b.validateSpec fun _ =>
  Res.bind (depotLoop [] ls) fun r =>
  .ok ({ b with depots := some r.1 }, r.2)

/-- Loop of `parse_demand_section` (lines 500-506): exactly `dim` lines; a
line with fewer than two tokens is skipped (the `if let` fails silently). -/
def demandLoop : Nat → List (Nat × ℚ) → List Str →
    Res (List (Nat × ℚ) × List Str)
  | 0, dta, ls => .ok (dta, ls)
  | Nat.succ _, _, [] => .crash
  | Nat.succ m, dta, l :: rest =>
    match splitWS (trimF l) with
    | id :: de :: _ =>
      Res.bind (Res.ofOption (parseNatR id)) fun i =>
      Res.bind (Res.ofOption (parseRatR de)) fun d =>
      demandLoop m (demandInsert dta i d) rest
    | _ => demandLoop m dta rest

/-- Embeds `TspBuilder::parse_demand_section` (lines 491-511). -/
def TspBuilder.parseDemandSection (b : TspBuilder) (ls : List Str) :
    Res (TspBuilder × List Str) :=
  Res.bind b.validateSpec fun _ =>
  match b.dim with
  | none => .crash
  | some dim =>
    Res.bind (demandLoop dim [] ls) fun r =>
    .ok ({ b with demands := some r.1 }, r.2)

/-- Pair-collecting loop shared by `parse_edge_data_section` (lines
522-535) and `parse_fixed_edges_section` (lines 551-563), whose Rust bodies
are identical: pairs of identifiers until the sentinel `-1`; a line with
fewer than two tokens is skipped. -/
def edgePairLoop : List (Nat × Nat) → List Str →
    Res (List (Nat × Nat) × List Str)
  | _, [] => .crash
  | dta, l :: rest =>
    if startsWithL (trimF l) "-1".toList then .ok (dta, rest)
    else
      match splitWS (trimF l) with
      | f :: s :: _ =>
        Res.bind (Res.ofOption (parseNatR f)) fun a =>
        Res.bind (Res.ofOption (parseNatR s)) fun c =>
        edgePairLoop (dta ++ [(a, c)]) rest
      | _ => edgePairLoop dta rest

/-- Embeds `TspBuilder::parse_edge_data_section` (lines 514-544): no spec
validation; `AdjList` is `todo!` (a panic) and `Undefined` a typed error;
collected pairs are appended to the list inside the `EdgeList` variant. -/
def TspBuilder.parseEdgeDataSection (b : TspBuilder) (ls : List Str) :
    Res (TspBuilder × List Str) :=
  match b.edge_format with
  | none => .crash
  | some (.EdgeList v) =>
    Res.bind (edgePairLoop [] ls) fun r =>
    .ok ({ b with edge_format := some (.EdgeList (v ++ r.1)) }, r.2)
  | some .AdjList => .crash
  | some .Undefined => .err (.InvalidEntry kEdgeFormat)

/-- Embeds `TspBuilder::parse_fixed_edges_section` (lines 546-568): no spec
validation. -/
def TspBuilder.parseFixedEdgesSection (b : TspBuilder) (ls : List Str) :
    Res (TspBuilder × List Str) :=
  Res.bind (edgePairLoop [] ls) fun r =>
  .ok ({ b with fixed_edges := some r.1 }, r.2)

/-- Loop of `parse_display_data_section` (lines 696-711): exactly `dim`
lines of `(id, x, y)`. -/
def dispLoop : Nat → List Point → List Str → Res (List Point × List Str)
  | 0, dta, ls => .ok (dta, ls)
  | Nat.succ _, _, [] => .crash
  | Nat.succ m, dta, l :: rest =>
    let v := splitWS (trimF l)
    Res.bind (idxq v 0) fun t0 =>
    Res.bind (Res.ofOption (parseNatR t0)) fun id =>
    Res.bind (idxq v 1) fun t1 =>
    Res.bind (Res.ofOption (parseRatR t1)) fun x =>
    Res.bind (idxq v 2) fun t2 =>
    Res.bind (Res.ofOption (parseRatR t2)) fun y =>
    dispLoop m (dta ++ [⟨id, [x, y]⟩]) rest

/-- Embeds `TspBuilder::parse_display_data_section` (lines 687-716). -/
def TspBuilder.parseDisplayDataSection (b : TspBuilder) (ls : List Str) :
    Res (TspBuilder × List Str) :=
  Res.bind b.validateSpec fun _ =>
  match b.dim with
  | none => .crash
  | some dim =>
    Res.bind (dispLoop dim [] ls) fun r =>
    .ok ({ b with disp_coords := some r.1 }, r.2)

/-- Whitespace tokens of a line, each `unwrap`-parsed as `usize`. -/
def natTokens : List Str → Res (List Nat)
  | [] => .ok []
  | t :: ts =>
    Res.bind (Res.ofOption (parseNatR t)) fun n =>
    Res.bind (natTokens ts) fun ns => .ok (n :: ns)

/-- Whitespace tokens of a line, each `unwrap`-parsed as `f64`. -/
def ratTokens : List Str → Res (List ℚ)
  | [] => .ok []
  | t :: ts =>
    Res.bind (Res.ofOption (parseRatR t)) fun q =>
    Res.bind (ratTokens ts) fun qs => .ok (q :: qs)

/-- Loop of `parse_tour_section` (lines 581-619). The Rust code calls
`lines_it.peekable().peek()` on the borrowed iterator after each sentinel;
the temporary `Peekable` is dropped at the end of the `match`, so the
peeked line is consumed from the shared cursor in every branch of the
lookahead, including the branches that `break`. -/
def tourLoop (v : List Nat) (dta : List (List Nat)) :
    List Str → Res (List (List Nat) × List Str)
  | [] => .crash
  | l :: ls =>
    let s := trimF l
    if startsWithL s "-1".toList then
      let dta2 := dta ++ [v]
      match ls with
      | [] => .ok (dta2, [])
      | p :: ps =>
        let s2 := trimF p
        if startsWithL s2 "-1".toList then .ok (dta2, ps)
        else
          match s2 with
          | [] => .crash
          | c :: _ =>
            if c.isDigit then
              Res.bind (natTokens (splitWS s2)) fun w => tourLoop w dta2 ps
            else .ok (dta2, ps)
    else
      Res.bind (natTokens (splitWS s)) fun w => tourLoop (v ++ w) dta ls

/-- Embeds `TspBuilder::parse_tour_section` (lines 571-624). -/
def TspBuilder.parseTourSection (b : TspBuilder) (ls : List Str) :
    Res (TspBuilder × List Str) :=
  Res.bind b.validateSpec fun _ =>
  Res.bind (tourLoop [] [] ls) fun r =>
  .ok ({ b with tours := some r.1 }, r.2)

/-- Token-reading loop of `parse_edge_weight_section` (lines 660-670):
whole lines of `f64` tokens are appended until at least `cnt` tokens have
been collected. -/
def pewRead (cnt : Nat) : List ℚ → List Str → Res (List ℚ × List Str)
  | v, [] => if v.length < cnt then .crash else .ok (v, [])
  | v, l :: rest =>
    if v.length < cnt then
      Res.bind (ratTokens (splitWS (trimF l))) fun tks =>
      pewRead cnt (v ++ tks) rest
    else .ok (v, l :: rest)

/-- Row-slicing loop of `parse_edge_weight_section` (lines 678-680):
`v.drain(0..len_row)` for each row length, a panic when fewer tokens than
the row length remain. -/
def drainRows : List Nat → List ℚ → Res (List (List ℚ))
  | [], _ => .ok []
  | r :: rs, v =>
    if r ≤ v.length then
      Res.bind (drainRows rs (v.drop r)) fun rows => .ok (v.take r :: rows)
    else .crash

/-- Embeds `TspBuilder::parse_edge_weight_section` (lines 627-685),
including the SOP tolerance: when exactly `dim + 1` tokens were collected,
the first is discarded. -/
def TspBuilder.parseEdgeWeightSection (b : TspBuilder) (ls : List Str) :
    Res (TspBuilder × List Str) :=
  Res.bind b.validateSpec fun _ =>
  match b.dim with
  | none => .crash
  | some dim =>
    match b.weight_format with
    | none => .crash
    | some wf =>
      Res.bind (pewRead (pewCount wf dim) [] ls) fun r =>
      let v := if r.1.length = dim + 1 then r.1.drop 1 else r.1
      Res.bind (drainRows (pewRowLens wf dim) v) fun rows =>
      .ok ({ b with edge_weights := some rows }, r.2)

/-- The dispatch loop of `TspBuilder::parse_it` (lines 333-406), with fuel
bounding the number of iterations. Every iteration consumes at least the
line it dispatches on, so the initial fuel `lines.length + 1` used by
`parseLines` makes the zero-fuel outcome unreachable; that outcome is
`Res.crash` so it can never pose as a successful parse. -/
def parseItGo : Nat → TspBuilder → List Str → Res Tsp
  | 0, _, _ => .crash
  | Nat.succ _, b, [] => b.build
  | Nat.succ fuel, b, l :: rest =>
    let line := trimF l
    if line = [] then parseItGo fuel b rest
    else if startsWithL line "EOF".toList then b.build
    else if startsWithL line kName then
      Res.bind (splitterF line) fun v =>
      parseItGo fuel { b with name := some v } rest
    else if startsWithL line kType then
      Res.bind (splitterF line) fun v =>
      Res.bind (TspKind.tryFromS v) fun k =>
      parseItGo fuel { b with kind := some k } rest
    else if startsWithL line "COMMENT".toList then
      Res.bind (splitterF line) fun v =>
      parseItGo fuel { b with comment := some v } rest
    else if startsWithL line kDim then
      Res.bind (splitterF line) fun v =>
      Res.bind (Res.ofOption (parseNatR v)) fun n =>
      parseItGo fuel { b with dim := some n } rest
    else if startsWithL line "CAPACITY".toList then
      Res.bind (splitterF line) fun v =>
      Res.bind (Res.ofOption (parseNatR v)) fun n =>
      parseItGo fuel { b with capacity := some n } rest
    else if startsWithL line kWeightType then
      Res.bind (splitterF line) fun v =>
      Res.bind (WeightKind.tryFromS v) fun k =>
      parseItGo fuel
        { b with weight_kind := some k,
                 coord_kind := some (CoordKind.ofWeightKind k) } rest
    else if startsWithL line kWeightFormat then
      Res.bind (splitterF line) fun v =>
      Res.bind (WeightFormat.tryFromS v) fun k =>
      parseItGo fuel { b with weight_format := some k } rest
    else if startsWithL line kEdgeFormat then
      Res.bind (splitterF line) fun v =>
      Res.bind (EdgeFormat.tryFromS v) fun k =>
      parseItGo fuel { b with edge_format := some k } rest
    else if startsWithL line kNodeCoordType then
      Res.bind (splitterF line) fun v =>
      Res.bind (CoordKind.tryFromS v) fun k =>
      parseItGo fuel { b with coord_kind := some k } rest
    else if startsWithL line kDispType then
      Res.bind (splitterF line) fun v =>
      Res.bind (DisplayKind.tryFromS v) fun k =>
      parseItGo fuel { b with disp_kind := some k } rest
    else if startsWithL line kNodeCoordSec then
      Res.bind (b.parseNodeCoordSection rest) fun r => parseItGo fuel r.1 r.2
    else if startsWithL line "DEPOT_SECTION".toList then
      Res.bind (b.parseDepotSection rest) fun r => parseItGo fuel r.1 r.2
    else if startsWithL line "DEMAND_SECTION".toList then
      Res.bind (b.parseDemandSection rest) fun r => parseItGo fuel r.1 r.2
    else if startsWithL line "EDGE_DATA_SECTION".toList then
      Res.bind (b.parseEdgeDataSection rest) fun r => parseItGo fuel r.1 r.2
    else if startsWithL line "FIXED_EDGES_SECTION".toList then
      Res.bind (b.parseFixedEdgesSection rest) fun r => parseItGo fuel r.1 r.2
    else if startsWithL line "DISPLAY_DATA_SECTION".toList then
      Res.bind (b.parseDisplayDataSection rest) fun r =>
      parseItGo fuel r.1 r.2
    else if startsWithL line kTourSec then
      Res.bind (b.parseTourSection rest) fun r => parseItGo fuel r.1 r.2
    else if startsWithL line kEdgeWeightSec then
      Res.bind (b.parseEdgeWeightSection rest) fun r => parseItGo fuel r.1 r.2
    else .err (.InvalidEntry line)

/-- Runs the dispatch loop on a list of lines from a fresh builder. -/
def parseLines (lines : List Str) : Res Tsp :=
  parseItGo (lines.length + 1) TspBuilder.new lines

/-- Embeds `TspBuilder::parse_str` (lines 304-310): split the input into
Rust lines and run the dispatch loop. -/
def parseStr (s : String) : Res Tsp := parseLines (rustLines s.toList)

/-- Splitting a separator-free string yields the single whole piece. -/
theorem splitOnC_no_sep {sep : Char} {s : Str} (h : sep ∉ s) :
    splitOnC sep s = [s] := by
  induction s with
  | nil => rfl
  | cons c cs ih =>
    have h1 : ¬(c = sep) := fun hc => h (hc ▸ List.mem_cons_self c cs)
    have h2 : sep ∉ cs := fun hm => h (List.mem_cons_of_mem c hm)
    simp only [splitOnC, if_neg h1, ih h2]

/-- Splitting past a separator-free head piece produces that head piece and
then the split of the tail. -/
theorem splitOnC_append_sep {sep : Char} {x : Str} (y : Str) (h : sep ∉ x) :
    splitOnC sep (x ++ sep :: y) = x :: splitOnC sep y := by
  induction x with
  | nil => simp [splitOnC]
  | cons c cs ih =>
    have h1 : ¬(c = sep) := fun hc => h (hc ▸ List.mem_cons_self c cs)
    have h2 : sep ∉ cs := fun hm => h (List.mem_cons_of_mem c hm)
    simp only [List.cons_append, splitOnC, if_neg h1, List.append_eq, ih h2]

/-- The empty pattern is a leading segment of every string. -/
theorem startsWithL_nil (s : Str) : startsWithL s [] = true := by
  cases s <;> rfl

/-- A prefix test no longer than the head part of an append ignores the
tail. -/
theorem startsWithL_append {p : Str} :
    ∀ {x : Str} (y : List Char), p.length ≤ x.length →
      startsWithL (x ++ y) p = startsWithL x p := by
  induction p with
  | nil =>
    intro x y _
    rw [startsWithL_nil, startsWithL_nil]
  | cons q qs ih =>
    intro x y h
    cases x with
    | nil => simp at h
    | cons c cs =>
      simp only [List.cons_append, startsWithL, List.append_eq]
      rw [ih y (by simpa using h)]

/-- C4 (code bug): the claim — that `parse_str` always returns a value of
the result type, turning every malformed numeric token into a typed error —
matches the propagation policy of the spec, but the code `unwrap`s the
`usize` conversion of a `DIMENSION` line, so the input below panics
(`Res.crash`) instead of producing a typed error. -/
theorem c4_malformed_number_crash :
    parseStr "DIMENSION: x\nEOF" = Res.crash := by decide

/-- Input whose tour section is closed by a sentinel and then `EOF`. -/
def s5good : String := "NAME: t\nTYPE: TOUR\nTOUR_SECTION\n1\n-1\nEOF"

/-- The same input with one extra line after the `EOF` line. -/
def s5junk : String := "NAME: t\nTYPE: TOUR\nTOUR_SECTION\n1\n-1\nEOF\nJUNK"

/-- C5, counterexample: the two inputs differ only in a line that comes
after the first `EOF` line, yet the first parses successfully while the
second fails — the tour-section lookahead consumed the `EOF` line, so the
dispatch loop kept reading past it. The claim that no line after the first
`EOF` affects the parse result is therefore false. -/
theorem c5_eof_cex :
    rustLines s5junk.toList = rustLines s5good.toList ++ ["JUNK".toList] ∧
    Res.isOk (parseStr s5good) = true ∧
    parseStr s5junk = Res.err (ParseTspError.InvalidEntry "JUNK".toList) := by
  decide

/-- C5, amended: a line beginning with `EOF` that the top-level dispatch
loop itself examines terminates scanning — the result is `build` of the
accumulated builder, independent of every later line. (The exception the
counterexample exhibits: an `EOF` line directly after a tour-section
sentinel is consumed by the tour parser lookahead and never reaches the
dispatch loop.) -/
theorem c5_eof_amended (fuel : Nat) (b : TspBuilder) (l : Str)
    (rest : List Str) (h : startsWithL (trimF l) "EOF".toList = true) :
    parseItGo (fuel + 1) b (l :: rest) = b.build := by
  have hne : ¬(trimF l = []) := by
    intro hq
    rw [hq] at h
    exact absurd h (by decide)
  simp only [parseItGo]
  rw [if_neg hne, if_pos h]

/-- C5, witness: the amended theorem applied to an `EOF` line followed by an
arbitrary further line. -/
theorem c5_eof_amended_witness :
    parseItGo 1 TspBuilder.new ["EOF".toList, "GARBAGE".toList] =
      TspBuilder.new.build :=
  c5_eof_amended 0 TspBuilder.new "EOF".toList ["GARBAGE".toList] (by decide)

/-- C6: when the weight kind is not `Explicit` and either node identifier
is absent from the coordinate map, the weight query answers `0` — for every
cost function, so the distance formulas are never consulted. -/
theorem c6_absent_node_zero (cost : WeightKind → List ℚ → List ℚ → ℚ)
    (t : Tsp) (a b : Nat) (hk : t.weight_kind ≠ WeightKind.Explicit)
    (habs : coordGet t.node_coords a = none ∨
      coordGet t.node_coords b = none) :
    Tsp.weight cost t a b = Res.ok 0 := by
  cases hwk : t.weight_kind
  case Explicit => exact absurd hwk hk
  all_goals {
    rcases habs with h | h
    · cases h2 : coordGet t.node_coords b <;> simp [Tsp.weight, hwk, h, h2]
    · cases h2 : coordGet t.node_coords a <;> simp [Tsp.weight, hwk, h, h2]
  }

/-- A `GEO` instance with an empty coordinate map. -/
def tGeo : Tsp :=
  { mkExplicit WeightFormat.Undefined 0 mOne with
      weight_kind := WeightKind.Geo }

/-- C6, witness: the theorem applied at the empty-coordinate `GEO` instance
and the absent pair `(1, 2)`. -/
theorem c6_absent_node_zero_witness :
    Tsp.weight zeroCost tGeo 1 2 = Res.ok 0 :=
  c6_absent_node_zero zeroCost tGeo 1 2 (by decide) (Or.inl (by decide))

/-- Input whose `NAME` value itself contains a colon. -/
def s7 : String := "NAME: a:b\nTYPE: TOUR\nTOUR_SECTION\n1\n-1\nEOF"

/-- C7, counterexample: for the line `NAME: a:b` the claim says the stored
name is the whole remainder after the first colon, `a:b`; the splitter uses
`split(':')` and takes `val[1]`, so the stored name is just `a`. -/
theorem c7_splitter_cex :
    splitterF "NAME: a:b".toList = Res.ok "a".toList ∧
    Res.map Tsp.name (parseStr s7) = Res.ok "a".toList ∧
    "a".toList ≠ "a:b".toList := by decide

/-- C7, amended: the stored value is the trimmed text between the first and
the second colon of the line; it is the entire trimmed remainder after the
first colon exactly when the value contains no further colon. -/
theorem c7_splitter_amended (pre mid post val : Str)
    (h1 : ':' ∉ pre) (h2 : ':' ∉ mid) (h3 : ':' ∉ val) :
    splitterF (pre ++ ':' :: (mid ++ ':' :: post)) = Res.ok (trimF mid) ∧
    splitterF (pre ++ ':' :: val) = Res.ok (trimF val) := by
  constructor
  · unfold splitterF
    rw [splitOnC_append_sep _ h1, splitOnC_append_sep _ h2]
  · unfold splitterF
    rw [splitOnC_append_sep _ h1, splitOnC_no_sep h3]

/-- C7, witness: the amended theorem applied to `NAME: a:b` (value between
the colons is ` a`, trimmed to `a`) and to a colon-free value. -/
theorem c7_splitter_amended_witness :
    splitterF ("NAME".toList ++ ':' :: (" a".toList ++ ':' :: "b".toList)) =
      Res.ok (trimF " a".toList) ∧
    splitterF ("NAME".toList ++ ':' :: " ok ".toList) =
      Res.ok (trimF " ok ".toList) :=
  c7_splitter_amended "NAME".toList " a".toList "b".toList " ok ".toList
    (by decide) (by decide) (by decide)

/-- Input with the tour `4 3 2 1`, a sentinel, then `EOF`. -/
def s8one : String := "NAME: t\nTYPE: TOUR\nTOUR_SECTION\n4 3 2 1\n-1\nEOF"

/-- Input with two sentinel-terminated runs of node identifiers. -/
def s8two : String :=
  "NAME: t\nTYPE: TOUR\nTOUR_SECTION\n1 2\n-1\n3 4\n-1\nEOF"

/-- C8: the tour section `4 3 2 1`, `-1`, `EOF` yields exactly one tour of
length 4, and a section with two sentinel-terminated runs yields exactly
two tours. -/
theorem c8_tour_sections :
    Res.map Tsp.tours (parseStr s8one) = Res.ok [[4, 3, 2, 1]] ∧
    Res.map (fun t => t.tours.length) (parseStr s8one) = Res.ok 1 ∧
    Res.map (fun t => t.tours.map List.length) (parseStr s8one) =
      Res.ok [4] ∧
    Res.map Tsp.tours (parseStr s8two) = Res.ok [[1, 2], [3, 4]] ∧
    Res.map (fun t => t.tours.length) (parseStr s8two) = Res.ok 2 := by
  decide

/-- The minimal valid input of the spec (section 8) and of `TEST_STR` in
`src/tests.rs`, without the optional comment line. -/
def s9 : String :=
  "NAME: test\nTYPE: TSP\nDIMENSION: 3\nEDGE_WEIGHT_TYPE: GEO\nDISPLAY_DATA_TYPE: COORD_DISPLAY\nNODE_COORD_SECTION\n1 38.24 20.42\n2 39.57 26.15\n3 40.56 25.32\nEOF"

/-- C9: parsing the minimal valid text succeeds and yields dimension 3,
kind TSP and weight kind GEO. -/
theorem c9_minimal_parse :
    Res.isOk (parseStr s9) = true ∧
    Res.map Tsp.dim (parseStr s9) = Res.ok 3 ∧
    Res.map Tsp.kind (parseStr s9) = Res.ok TspKind.Tsp ∧
    Res.map Tsp.weight_kind (parseStr s9) = Res.ok WeightKind.Geo := by
  decide

/-- Input in which `NODE_COORD_TYPE` precedes `EDGE_WEIGHT_TYPE`. -/
def s10pre : String :=
  "NAME: t\nTYPE: TSP\nDIMENSION: 1\nNODE_COORD_TYPE: THREED_COORDS\nEDGE_WEIGHT_TYPE: GEO\nNODE_COORD_SECTION\n1 1.0 2.0\nEOF"

/-- Input in which `NODE_COORD_TYPE` follows `EDGE_WEIGHT_TYPE`. -/
def s10post : String :=
  "NAME: t\nTYPE: TSP\nDIMENSION: 1\nEDGE_WEIGHT_TYPE: GEO\nNODE_COORD_TYPE: THREED_COORDS\nNODE_COORD_SECTION\n1 1.0 2.0 3.0\nEOF"

/-- C10: processing an `EDGE_WEIGHT_TYPE` line always overwrites the
coordinate kind of the builder with the kind derived from the weight kind,
whatever the builder held before; consequently an earlier
`NODE_COORD_TYPE` (`THREED_COORDS`) is overwritten to the derived 2-D kind,
while a later one survives. -/
theorem c10_ewt_overwrites_coord_kind (fuel : Nat) (b : TspBuilder)
    (l : Str) (rest : List Str) (v : Str) (k : WeightKind)
    (hline : trimF l = "EDGE_WEIGHT_TYPE:".toList ++ v)
    (hv : ':' ∉ v) (hk : WeightKind.tryFromS (trimF v) = Res.ok k) :
    (parseItGo (fuel + 1) b (l :: rest) =
      parseItGo fuel
        { b with weight_kind := some k,
                 coord_kind := some (CoordKind.ofWeightKind k) } rest) ∧
    Res.map Tsp.coord_kind (parseStr s10pre) = Res.ok CoordKind.Coord2d ∧
    Res.map Tsp.coord_kind (parseStr s10post) = Res.ok CoordKind.Coord3d := by
  refine ⟨?_, by decide, by decide⟩
  have hne : ¬(trimF l = []) := by
    rw [hline]
    exact List.cons_ne_nil _ _
  have hEOF : ¬(startsWithL (trimF l) "EOF".toList = true) := by
    rw [hline, startsWithL_append _ (by decide)]; decide
  have hName : ¬(startsWithL (trimF l) kName = true) := by
    rw [hline, startsWithL_append _ (by decide)]; decide
  have hType : ¬(startsWithL (trimF l) kType = true) := by
    rw [hline, startsWithL_append _ (by decide)]; decide
  have hCom : ¬(startsWithL (trimF l) "COMMENT".toList = true) := by
    rw [hline, startsWithL_append _ (by decide)]; decide
  have hDim : ¬(startsWithL (trimF l) kDim = true) := by
    rw [hline, startsWithL_append _ (by decide)]; decide
  have hCap : ¬(startsWithL (trimF l) "CAPACITY".toList = true) := by
    rw [hline, startsWithL_append _ (by decide)]; decide
  have hWT : startsWithL (trimF l) kWeightType = true := by
    rw [hline, startsWithL_append _ (by decide)]; decide
  have hsplit : splitterF (trimF l) = Res.ok (trimF v) := by
    rw [hline,
      show "EDGE_WEIGHT_TYPE:".toList ++ v =
        "EDGE_WEIGHT_TYPE".toList ++ ':' :: v from rfl]
    unfold splitterF
    rw [splitOnC_append_sep _ (by decide), splitOnC_no_sep hv]
  simp only [parseItGo]
  rw [if_neg hne, if_neg hEOF, if_neg hName, if_neg hType, if_neg hCom,
    if_neg hDim, if_neg hCap, if_pos hWT, hsplit, Res.bind_ok, hk,
    Res.bind_ok]

/-- C10, witness: the theorem applied to the line `EDGE_WEIGHT_TYPE: GEO`
over a fresh builder. -/
theorem c10_ewt_overwrites_coord_kind_witness :
    parseItGo 1 TspBuilder.new ["EDGE_WEIGHT_TYPE: GEO".toList] =
      parseItGo 0
        { TspBuilder.new with
            weight_kind := some WeightKind.Geo,
            coord_kind := some (CoordKind.ofWeightKind WeightKind.Geo) }
        [] :=
  (c10_ewt_overwrites_coord_kind 0 TspBuilder.new
    "EDGE_WEIGHT_TYPE: GEO".toList [] " GEO".toList WeightKind.Geo
    (by decide) (by decide) (by decide)).1

end Tspf
